import Mathlib

/-!
Shallow embedding of the SprintLoop desktop host bridge
(`apps/desktop/src-tauri/src/lib.rs`).

The bridge is glue code over the host operating system's filesystem API, so
the OS is modelled as an explicit environment value passed to each operation:

* `Metadata` models `std::fs::Metadata` restricted to the fields the bridge
  reads: `is_dir()`, `len()`, and `modified()`.  The modification time is an
  `Option Int` of nanoseconds since the Unix epoch (negative = before the
  epoch, `none` = `modified()` returned `Err`).
* `DirEntryRaw` models one `std::fs::DirEntry`: its file name (after the
  `to_string_lossy` conversion, so a plain `String` here) and the outcome of
  its `metadata()` call (`none` = the call failed).
* `ReadDirResult` models `fs::read_dir`: either an error, or the iterator's
  item sequence, where a `none` item is an `Err` yielded mid-iteration
  (skipped by `.flatten()` in the source).
* `FsEnv` bundles the OS answers consulted by `read_directory`:
  `Path::exists` and `fs::read_dir`.

Strings stand for the lossy-UTF-8 rendering of OS strings throughout, and
`String.toLower` stands for Rust's `str::to_lowercase`; Rust's byte-wise
`String` ordering coincides with the code-point lexicographic ordering used
by Lean's `String` order, since UTF-8 preserves code-point order.
-/

structure Metadata where
  is_dir : Bool
  len : Nat
  mtime : Option Int
deriving DecidableEq, Repr

structure DirEntryRaw where
  file_name : String
  metadata : Option Metadata
deriving DecidableEq, Repr

inductive ReadDirResult where
  | ok : List (Option DirEntryRaw) → ReadDirResult
  | err : String → ReadDirResult
deriving DecidableEq, Repr

structure FsEnv where
  pathExists : String → Bool
  readDir : String → ReadDirResult

/-- The `FileEntry` struct of the source, serialized to the frontend. -/
structure FileEntry where
  name : String
  path : String
  is_dir : Bool
  size : Nat
  modified : Nat
deriving DecidableEq, Repr

/-- `DirEntry::path()` is the listed directory's path joined with the file
name; `PathBuf::push` inserts a separator only when needed. -/
def pathJoin (dir child : String) : String :=
  if dir.endsWith "/" then dir ++ child else dir ++ "/" ++ child

/-- The `modified` computation of `read_directory`:
`metadata.modified().map(|t| t.duration_since(UNIX_EPOCH).unwrap_or_default().as_secs()).unwrap_or(0)`.
A missing time gives 0; a pre-epoch time makes `duration_since` fail, and
`unwrap_or_default` gives the zero duration; otherwise `as_secs` is the
nanosecond count divided by 10^9, truncated. -/
def secsSinceEpoch (mtime : Option Int) : Nat :=
  match mtime with
  | none => 0
  | some t => if t < 0 then 0 else (t / 1000000000).toNat

/-- The `FileEntry` pushed by `read_directory` for one child whose metadata
call succeeded. -/
def mkFileEntry (dir : String) (entry : DirEntryRaw) (md : Metadata) : FileEntry :=
  { name := entry.file_name
    path := pathJoin dir entry.file_name
    is_dir := md.is_dir
    size := md.len
    modified := secsSinceEpoch md.mtime }

/-- The enumeration loop of `read_directory`: `.flatten()` drops `Err` items
of the iterator, and `if let Ok(metadata) = entry.metadata()` drops children
whose metadata call failed. -/
def processEntries (dir : String) (items : List (Option DirEntryRaw)) : List FileEntry :=
  items.filterMap fun item =>
    match item with
    | none => none
    | some entry =>
      match entry.metadata with
      | none => none
      | some md => some (mkFileEntry dir entry md)

/-- Rust `Ord::cmp` on strings, as `compareOfLessAndEq` over the string
order. -/
def strCmp (x y : String) : Ordering :=
  if x < y then Ordering.lt else if x = y then Ordering.eq else Ordering.gt

/-- The comparator closure passed to `entries.sort_by`. -/
def cmpEntry (a b : FileEntry) : Ordering :=
  match a.is_dir, b.is_dir with
  | true, false => Ordering.lt
  | false, true => Ordering.gt
  | _, _ => strCmp a.name.toLower b.name.toLower

/-- `sort_by` is a stable sort by the comparator; an element may precede
another exactly when the comparator does not answer `Greater`. -/
def entryLe (a b : FileEntry) : Bool :=
  decide (cmpEntry a b ≠ Ordering.gt)

/-- `entries.sort_by(...)`: Rust's stable in-place sort, modelled by
`List.mergeSort` (also stable) with the not-greater relation. -/
def sortEntries (l : List FileEntry) : List FileEntry :=
  l.mergeSort entryLe

/-- `fn read_directory(path: String) -> Result<Vec<FileEntry>, String>`. -/
def read_directory (env : FsEnv) (path : String) : Except String (List FileEntry) :=
  if !(env.pathExists path) then
    Except.error ("Path does not exist: " ++ path)
  else
    match env.readDir path with
    | ReadDirResult.ok items => Except.ok (sortEntries (processEntries path items))
    | ReadDirResult.err e => Except.error ("Failed to read directory: " ++ e)

/-- `fn greet(name: &str) -> String`. -/
def greet (name : String) : String :=
  "Hello, " ++ name ++ "! Welcome to SprintLoop."

/-- `fn get_home_dir() -> Result<String, String>`; the argument models the
answer of `dirs::home_dir()` after the lossy rendering. -/
def get_home_dir (home : Option String) : Except String String :=
  match home with
  | some p => Except.ok p
  | none => Except.error "Could not determine home directory"

/-- The file store: contents of the file at each path, `none` = absent.
Contents are `String`s, so every stored payload is valid UTF-8. -/
def FileStore := String → Option String

/-- `fn read_file_content(path: String) -> Result<String, String>`:
`fs::read_to_string` returns the full content of an existing file. -/
def read_file_content (files : FileStore) (path : String) : Except String String :=
  match files path with
  | some s => Except.ok s
  | none => Except.error ("Failed to read file: " ++ path)

/-- `fn write_file_content(path: String, content: String) -> Result<(), String>`:
`fs::write` creates-or-truncates, so on success the file holds exactly
`content`; `canWrite` models the OS accepting or refusing the write, and a
refused write leaves the store unchanged and reports the error. -/
def write_file_content (files : FileStore) (canWrite : String → Bool)
    (path content : String) : FileStore × Except String Unit :=
  if canWrite path then
    (fun q => if q = path then some content else files q, Except.ok ())
  else
    (files, Except.error ("Failed to write file: " ++ path))

/-! ### Order-theoretic facts about the `sort_by` comparator -/

theorem strCmp_ne_gt_iff {x y : String} : strCmp x y ≠ Ordering.gt ↔ x ≤ y := by
  unfold strCmp
  split_ifs with h1 h2
  · simpa using h1.le
  · simpa using h2.le
  · simp only [ne_eq, not_true_eq_false, false_iff]
    exact fun hle => h1 (hle.lt_of_ne h2)

theorem entryLe_eq_true_iff {a b : FileEntry} :
    entryLe a b = true ↔
      (a.is_dir = true ∧ b.is_dir = false)
      ∨ (a.is_dir = b.is_dir ∧ a.name.toLower ≤ b.name.toLower) := by
  unfold entryLe cmpEntry
  cases ha : a.is_dir <;> cases hb : b.is_dir <;>
    simp [strCmp_ne_gt_iff]

theorem entryLe_trans : ∀ (a b c : FileEntry), entryLe a b → entryLe b c → entryLe a c := by
  intro a b c hab hbc
  rw [entryLe_eq_true_iff] at hab hbc ⊢
  rcases hab with ⟨ha, hb⟩ | ⟨hab, hnab⟩
  · rcases hbc with ⟨hb', _⟩ | ⟨hbc, _⟩
    · rw [hb] at hb'; cases hb'
    · exact Or.inl ⟨ha, hbc ▸ hb⟩
  · rcases hbc with ⟨hb', hc⟩ | ⟨hbc, hnbc⟩
    · exact Or.inl ⟨hab.trans hb', hc⟩
    · exact Or.inr ⟨hab.trans hbc, le_trans hnab hnbc⟩

theorem entryLe_total : ∀ (a b : FileEntry), entryLe a b || entryLe b a := by
  intro a b
  rw [Bool.or_eq_true, entryLe_eq_true_iff, entryLe_eq_true_iff]
  cases ha : a.is_dir <;> cases hb : b.is_dir
  · rcases le_total a.name.toLower b.name.toLower with h | h
    · exact Or.inl (Or.inr ⟨rfl, h⟩)
    · exact Or.inr (Or.inr ⟨rfl, h⟩)
  · exact Or.inr (Or.inl ⟨rfl, rfl⟩)
  · exact Or.inl (Or.inl ⟨rfl, rfl⟩)
  · rcases le_total a.name.toLower b.name.toLower with h | h
    · exact Or.inl (Or.inr ⟨rfl, h⟩)
    · exact Or.inr (Or.inr ⟨rfl, h⟩)

theorem sortEntries_perm (l : List FileEntry) : List.Perm (sortEntries l) l :=
  List.mergeSort_perm l entryLe

theorem sortEntries_pairwise (l : List FileEntry) :
    (sortEntries l).Pairwise fun a b => entryLe a b = true :=
  List.sorted_mergeSort entryLe_trans entryLe_total l

/-- The sort key of an entry: the directory flag and the lowercased name.
Two entries with the same key compare `Equal` under the source comparator. -/
def sameKey (d : Bool) (s : String) (e : FileEntry) : Bool :=
  e.is_dir == d && e.name.toLower == s

theorem entryLe_of_sameKey {d : Bool} {s : String} {a b : FileEntry}
    (ha : sameKey d s a = true) (hb : sameKey d s b = true) : entryLe a b = true := by
  simp only [sameKey, Bool.and_eq_true, beq_iff_eq] at ha hb
  rw [entryLe_eq_true_iff]
  exact Or.inr ⟨ha.1.trans hb.1.symm, le_of_eq (ha.2.trans hb.2.symm)⟩

/-- Stability of the sort: the subsequence of entries sharing one sort key is
unchanged by `sortEntries`. -/
theorem sortEntries_filter_sameKey (l : List FileEntry) (d : Bool) (s : String) :
    (sortEntries l).filter (sameKey d s) = l.filter (sameKey d s) := by
  have hpair : (l.filter (sameKey d s)).Pairwise fun a b => entryLe a b = true := by
    refine List.pairwise_of_forall_mem_list ?_
    intro a ha b hb
    exact entryLe_of_sameKey (List.mem_filter.mp ha).2 (List.mem_filter.mp hb).2
  have hsub : List.Sublist (l.filter (sameKey d s)) (sortEntries l) :=
    List.sublist_mergeSort entryLe_trans entryLe_total hpair (List.filter_sublist l)
  have hsub2 : List.Sublist (l.filter (sameKey d s)) ((sortEntries l).filter (sameKey d s)) := by
    have h := hsub.filter (sameKey d s)
    simpa [List.filter_filter] using h
  refine (hsub2.eq_of_length ?_).symm
  exact (((sortEntries_perm l).filter (sameKey d s)).length_eq).symm

theorem sortEntries_pairwise_spec (l : List FileEntry) :
    (sortEntries l).Pairwise fun a b =>
      (b.is_dir = true → a.is_dir = true)
      ∧ (a.is_dir = b.is_dir → a.name.toLower ≤ b.name.toLower) := by
  refine List.Pairwise.imp ?_ (sortEntries_pairwise l)
  intro a b hab
  rw [entryLe_eq_true_iff] at hab
  constructor
  · intro hb
    rcases hab with ⟨ha, _⟩ | ⟨hab, _⟩
    · exact ha
    · exact hab.trans hb
  · intro hd
    rcases hab with ⟨ha, hb⟩ | ⟨_, hle⟩
    · rw [ha, hb] at hd; cases hd
    · exact hle

/-! ### Facts about the enumeration loop -/

theorem read_directory_ok (env : FsEnv) (path : String)
    (items : List (Option DirEntryRaw))
    (hex : env.pathExists path = true) (hrd : env.readDir path = ReadDirResult.ok items) :
    read_directory env path = Except.ok (sortEntries (processEntries path items)) := by
  simp [read_directory, hex, hrd]

theorem processEntries_append (dir : String) (l₁ l₂ : List (Option DirEntryRaw)) :
    processEntries dir (l₁ ++ l₂) = processEntries dir l₁ ++ processEntries dir l₂ :=
  List.filterMap_append _ _ _

theorem processEntries_cons_none (dir : String) (items : List (Option DirEntryRaw)) :
    processEntries dir (none :: items) = processEntries dir items := by
  simp [processEntries, List.filterMap_cons]

theorem processEntries_cons_failed (dir : String) (entry : DirEntryRaw)
    (items : List (Option DirEntryRaw)) (h : entry.metadata = none) :
    processEntries dir (some entry :: items) = processEntries dir items := by
  simp [processEntries, List.filterMap_cons, h]

theorem mkFileEntry_mem_processEntries (dir : String) {items : List (Option DirEntryRaw)}
    {entry : DirEntryRaw} {md : Metadata}
    (hmem : some entry ∈ items) (hmd : entry.metadata = some md) :
    mkFileEntry dir entry md ∈ processEntries dir items := by
  simp only [processEntries, List.mem_filterMap]
  exact ⟨some entry, hmem, by simp [hmd]⟩

/-! ### Concrete environments used by witnesses and counterexamples -/

def mdDir : Metadata := { is_dir := true, len := 4096, mtime := some 0 }

def rawDir : DirEntryRaw := { file_name := "sub", metadata := some mdDir }

def mdFile : Metadata := { is_dir := false, len := 7, mtime := none }

def rawFile : DirEntryRaw := { file_name := "a.txt", metadata := some mdFile }

def rawBad : DirEntryRaw := { file_name := "ghost", metadata := none }

def envOne : FsEnv :=
  { pathExists := fun _ => true
    readDir := fun _ => ReadDirResult.ok [some rawDir] }

def envMix : FsEnv :=
  { pathExists := fun _ => true
    readDir := fun _ => ReadDirResult.ok [some rawFile, some rawBad, none, some rawDir] }

def envMissing : FsEnv :=
  { pathExists := fun _ => false
    readDir := fun _ => ReadDirResult.err "io" }

def files₀ : FileStore :=
  fun q => if q = "/notes.txt" then some "old much longer content" else none

/-! ### Claims -/

/-- Claim C8: `greet` has no failure mode; it interpolates `name` into the
fixed greeting template, so the result always contains `name` verbatim as a
contiguous substring. -/
theorem greet_interpolates (name : String) :
    greet name = "Hello, " ++ name ++ "! Welcome to SprintLoop."
    ∧ ∃ l r, greet name = l ++ name ++ r :=
  ⟨rfl, ⟨"Hello, ", "! Welcome to SprintLoop.", rfl⟩⟩

/-- Claim C7: `get_home_dir` returns the resolved home directory path
whenever the host environment produced one, and returns the descriptive
error string exactly when it produced none; it is a total function, so it
can neither panic nor return an empty success in that case. -/
theorem get_home_dir_spec (p : String) :
    get_home_dir (some p) = Except.ok p
    ∧ get_home_dir (none : Option String)
        = Except.error "Could not determine home directory" :=
  ⟨rfl, rfl⟩

/-- Claim C4: on a path the OS reports as non-existent, `read_directory`
returns the not-found error; the `Result` type carries no entries alongside
it, so there are no partial results. -/
theorem read_directory_not_found (env : FsEnv) (path : String)
    (h : env.pathExists path = false) :
    read_directory env path = Except.error ("Path does not exist: " ++ path) := by
  simp [read_directory, h]

/-- Witness for C4 at a concrete environment. -/
theorem read_directory_not_found_witness :
    envMissing.pathExists "/nope" = false
    ∧ read_directory envMissing "/nope"
        = Except.error ("Path does not exist: " ++ "/nope") :=
  ⟨rfl, read_directory_not_found envMissing "/nope" rfl⟩

/-- Claim C5: a successful `write_file_content` replaces the file content in
full, whatever was there before, so a subsequent `read_file_content` of the
same path returns exactly the written string. -/
theorem write_then_read_roundtrip (files : FileStore) (canWrite : String → Bool)
    (p s : String) (h : (write_file_content files canWrite p s).2 = Except.ok ()) :
    read_file_content (write_file_content files canWrite p s).1 p = Except.ok s := by
  unfold write_file_content at h ⊢
  by_cases hw : canWrite p = true
  · simp only [hw, if_true]
    simp [read_file_content]
  · simp [hw] at h

/-- Witness for C5: the new content is shorter than the prior content of the
file and contains an embedded newline; the read returns it exactly. -/
theorem write_then_read_roundtrip_witness :
    (write_file_content files₀ (fun _ => true) "/notes.txt" "a\nb").2 = Except.ok ()
    ∧ read_file_content
        (write_file_content files₀ (fun _ => true) "/notes.txt" "a\nb").1 "/notes.txt"
      = Except.ok "a\nb" :=
  ⟨rfl, write_then_read_roundtrip files₀ (fun _ => true) "/notes.txt" "a\nb" rfl⟩

/-- Claim C2: a successful listing is sorted with every directory before
every non-directory, within each group ascending by case-insensitive name,
and the subsequence of entries sharing one sort key (directory flag plus
lowercased name, the comparator's equality) keeps its encounter order. -/
theorem read_directory_sorted (env : FsEnv) (path : String)
    (items : List (Option DirEntryRaw)) (d : Bool) (s : String)
    (hex : env.pathExists path = true)
    (hrd : env.readDir path = ReadDirResult.ok items) :
    read_directory env path = Except.ok (sortEntries (processEntries path items))
    ∧ (sortEntries (processEntries path items)).Pairwise (fun a b =>
        (b.is_dir = true → a.is_dir = true)
        ∧ (a.is_dir = b.is_dir → a.name.toLower ≤ b.name.toLower))
    ∧ (sortEntries (processEntries path items)).filter (sameKey d s)
        = (processEntries path items).filter (sameKey d s) :=
  ⟨read_directory_ok env path items hex hrd,
   sortEntries_pairwise_spec _,
   sortEntries_filter_sameKey _ d s⟩

/-- Witness for C2 at a concrete environment. -/
theorem read_directory_sorted_witness :
    envMix.pathExists "/d" = true
    ∧ envMix.readDir "/d"
        = ReadDirResult.ok [some rawFile, some rawBad, none, some rawDir]
    ∧ (read_directory envMix "/d"
        = Except.ok (sortEntries
            (processEntries "/d" [some rawFile, some rawBad, none, some rawDir]))
      ∧ (sortEntries
          (processEntries "/d" [some rawFile, some rawBad, none, some rawDir])).Pairwise
          (fun a b =>
            (b.is_dir = true → a.is_dir = true)
            ∧ (a.is_dir = b.is_dir → a.name.toLower ≤ b.name.toLower))
      ∧ (sortEntries
          (processEntries "/d" [some rawFile, some rawBad, none, some rawDir])).filter
            (sameKey false "a.txt")
        = (processEntries "/d" [some rawFile, some rawBad, none, some rawDir]).filter
            (sameKey false "a.txt")) :=
  ⟨rfl, rfl,
   read_directory_sorted envMix "/d" [some rawFile, some rawBad, none, some rawDir]
     false "a.txt" rfl rfl⟩

/-- Claim C3: a child whose metadata retrieval fails is dropped and the call
still succeeds: the result is computed from the remaining children alone,
and it is a permutation of (exactly) the processed entries of the children
whose metadata succeeded. -/
theorem read_directory_skips_failed_metadata (env : FsEnv) (path : String)
    (pre post : List (Option DirEntryRaw)) (entry : DirEntryRaw)
    (hex : env.pathExists path = true)
    (hrd : env.readDir path = ReadDirResult.ok (pre ++ some entry :: post))
    (hmd : entry.metadata = none) :
    read_directory env path = Except.ok (sortEntries (processEntries path (pre ++ post)))
    ∧ List.Perm (sortEntries (processEntries path (pre ++ post)))
        (processEntries path (pre ++ post)) := by
  have hp : processEntries path (pre ++ some entry :: post)
      = processEntries path (pre ++ post) := by
    rw [processEntries_append, processEntries_append,
      processEntries_cons_failed path entry post hmd]
  exact ⟨by rw [read_directory_ok env path _ hex hrd, hp], sortEntries_perm _⟩

/-- Witness for C3: `rawBad` has no metadata and vanishes from the result. -/
theorem read_directory_skips_failed_metadata_witness :
    envMix.pathExists "/d" = true
    ∧ envMix.readDir "/d"
        = ReadDirResult.ok ([some rawFile] ++ some rawBad :: [none, some rawDir])
    ∧ rawBad.metadata = none
    ∧ (read_directory envMix "/d"
        = Except.ok (sortEntries (processEntries "/d" ([some rawFile] ++ [none, some rawDir])))
      ∧ List.Perm (sortEntries (processEntries "/d" ([some rawFile] ++ [none, some rawDir])))
          (processEntries "/d" ([some rawFile] ++ [none, some rawDir]))) :=
  ⟨rfl, rfl, rfl,
   read_directory_skips_failed_metadata envMix "/d" [some rawFile] [none, some rawDir]
     rawBad rfl rfl rfl⟩

/-- Claim C10: an `Err` item yielded by the `read_dir` iterator itself is
skipped by `.flatten()`; the call still succeeds, with the result computed
from the remaining items alone. -/
theorem read_directory_skips_iter_error (env : FsEnv) (path : String)
    (pre post : List (Option DirEntryRaw))
    (hex : env.pathExists path = true)
    (hrd : env.readDir path = ReadDirResult.ok (pre ++ none :: post)) :
    read_directory env path
      = Except.ok (sortEntries (processEntries path (pre ++ post))) := by
  have hp : processEntries path (pre ++ none :: post)
      = processEntries path (pre ++ post) := by
    rw [processEntries_append, processEntries_append, processEntries_cons_none]
  rw [read_directory_ok env path _ hex hrd, hp]

/-- Witness for C10: the `none` item of `envMix` is dropped. -/
theorem read_directory_skips_iter_error_witness :
    envMix.pathExists "/d" = true
    ∧ envMix.readDir "/d"
        = ReadDirResult.ok ([some rawFile, some rawBad] ++ none :: [some rawDir])
    ∧ read_directory envMix "/d"
        = Except.ok (sortEntries
            (processEntries "/d" ([some rawFile, some rawBad] ++ [some rawDir]))) :=
  ⟨rfl, rfl,
   read_directory_skips_iter_error envMix "/d" [some rawFile, some rawBad]
     [some rawDir] rfl rfl⟩

/-- Claim C6: a listed child's `modified` field is the whole number of
seconds between the Unix epoch and its modification time (nanosecond time
`t` gives `t / 10^9`); an unavailable (`none`) or pre-epoch (negative) time
gives 0, and the call still succeeds with the child included. -/
theorem read_directory_modified_secs (env : FsEnv) (path : String)
    (items : List (Option DirEntryRaw)) (entry : DirEntryRaw) (md : Metadata)
    (hex : env.pathExists path = true)
    (hrd : env.readDir path = ReadDirResult.ok items)
    (hmem : some entry ∈ items) (hmd : entry.metadata = some md) :
    read_directory env path = Except.ok (sortEntries (processEntries path items))
    ∧ mkFileEntry path entry md ∈ sortEntries (processEntries path items)
    ∧ (mkFileEntry path entry md).modified
        = Option.elim md.mtime 0 (fun t => if t < 0 then 0 else (t / 1000000000).toNat) := by
  refine ⟨read_directory_ok env path items hex hrd, ?_, ?_⟩
  · simp only [sortEntries, List.mem_mergeSort]
    exact mkFileEntry_mem_processEntries path hmem hmd
  · cases h : md.mtime <;> simp [mkFileEntry, secsSinceEpoch, h]

/-- Witness for C6: `rawFile` has an unavailable modification time, is still
listed, and reports `modified = 0`. -/
theorem read_directory_modified_secs_witness :
    envMix.pathExists "/d" = true
    ∧ envMix.readDir "/d"
        = ReadDirResult.ok [some rawFile, some rawBad, none, some rawDir]
    ∧ some rawFile ∈ [some rawFile, some rawBad, none, some rawDir]
    ∧ rawFile.metadata = some mdFile
    ∧ (read_directory envMix "/d"
        = Except.ok (sortEntries
            (processEntries "/d" [some rawFile, some rawBad, none, some rawDir]))
      ∧ mkFileEntry "/d" rawFile mdFile
          ∈ sortEntries (processEntries "/d" [some rawFile, some rawBad, none, some rawDir])
      ∧ (mkFileEntry "/d" rawFile mdFile).modified
          = Option.elim mdFile.mtime 0
              (fun t => if t < 0 then 0 else (t / 1000000000).toNat)) :=
  ⟨rfl, rfl, List.mem_cons_self _ _, rfl,
   read_directory_modified_secs envMix "/d" [some rawFile, some rawBad, none, some rawDir]
     rawFile mdFile rfl rfl (List.mem_cons_self _ _) rfl⟩

/-- Claim C9: every entry of a successful listing has `path` equal to the
listed directory path joined with its `name` (so `name` is the final
segment of `path`). -/
theorem read_directory_path_eq_join (env : FsEnv) (path : String)
    (items : List (Option DirEntryRaw))
    (hex : env.pathExists path = true)
    (hrd : env.readDir path = ReadDirResult.ok items) :
    read_directory env path = Except.ok (sortEntries (processEntries path items))
    ∧ (sortEntries (processEntries path items)).all
        (fun e => e.path == pathJoin path e.name) = true := by
  refine ⟨read_directory_ok env path items hex hrd, ?_⟩
  rw [List.all_eq_true]
  intro e he
  rw [sortEntries, List.mem_mergeSort] at he
  simp only [processEntries, List.mem_filterMap] at he
  obtain ⟨item, hitem, hfe⟩ := he
  rcases item with _ | entry
  · simp at hfe
  · rcases hmd : entry.metadata with _ | md
    · simp [hmd] at hfe
    · simp only [hmd, Option.some.injEq] at hfe
      subst hfe
      simp [mkFileEntry]

/-- Witness for C9 at a concrete environment. -/
theorem read_directory_path_eq_join_witness :
    envMix.pathExists "/d" = true
    ∧ envMix.readDir "/d"
        = ReadDirResult.ok [some rawFile, some rawBad, none, some rawDir]
    ∧ (read_directory envMix "/d"
        = Except.ok (sortEntries
            (processEntries "/d" [some rawFile, some rawBad, none, some rawDir]))
      ∧ (sortEntries
          (processEntries "/d" [some rawFile, some rawBad, none, some rawDir])).all
          (fun e => e.path == pathJoin "/d" e.name) = true) :=
  ⟨rfl, rfl,
   read_directory_path_eq_join envMix "/d"
     [some rawFile, some rawBad, none, some rawDir] rfl rfl⟩

/-- Counterexample to claim C1 as stated: a directory child whose metadata
reports length 4096 (the usual on-disk size of a directory inode) is
returned with `is_dir = true` and `size = 4096 ≠ 0` — the code copies
`metadata.len()` unconditionally and never zeroes the size for
directories. -/
theorem read_directory_dir_size_counterexample :
    read_directory envOne "/srv" = Except.ok [mkFileEntry "/srv" rawDir mdDir]
    ∧ (mkFileEntry "/srv" rawDir mdDir).is_dir = true
    ∧ (mkFileEntry "/srv" rawDir mdDir).size = 4096 := by
  refine ⟨?_, rfl, rfl⟩
  rw [read_directory_ok envOne "/srv" [some rawDir] rfl rfl]
  have hp : processEntries "/srv" [some rawDir] = [mkFileEntry "/srv" rawDir mdDir] := rfl
  rw [hp, sortEntries, List.mergeSort_singleton]

/-- Claim C1 as amended: the `size` field of each listed child equals the
byte count its metadata reports (`metadata.len()`), for directories just as
for files; children whose metadata retrieval fails do not appear at all. -/
theorem read_directory_size_eq_len (env : FsEnv) (path : String)
    (items : List (Option DirEntryRaw)) (entry : DirEntryRaw) (md : Metadata)
    (hex : env.pathExists path = true)
    (hrd : env.readDir path = ReadDirResult.ok items)
    (hmem : some entry ∈ items) (hmd : entry.metadata = some md) :
    read_directory env path = Except.ok (sortEntries (processEntries path items))
    ∧ mkFileEntry path entry md ∈ sortEntries (processEntries path items)
    ∧ (mkFileEntry path entry md).size = md.len := by
  refine ⟨read_directory_ok env path items hex hrd, ?_, rfl⟩
  simp only [sortEntries, List.mem_mergeSort]
  exact mkFileEntry_mem_processEntries path hmem hmd

/-- Witness for the amended C1 at a concrete environment. -/
theorem read_directory_size_eq_len_witness :
    envOne.pathExists "/srv" = true
    ∧ envOne.readDir "/srv" = ReadDirResult.ok [some rawDir]
    ∧ some rawDir ∈ [some rawDir]
    ∧ rawDir.metadata = some mdDir
    ∧ (read_directory envOne "/srv"
        = Except.ok (sortEntries (processEntries "/srv" [some rawDir]))
      ∧ mkFileEntry "/srv" rawDir mdDir
          ∈ sortEntries (processEntries "/srv" [some rawDir])
      ∧ (mkFileEntry "/srv" rawDir mdDir).size = mdDir.len) :=
  ⟨rfl, rfl, List.mem_cons_self _ _, rfl,
   read_directory_size_eq_len envOne "/srv" [some rawDir] rawDir mdDir
     rfl rfl (List.mem_cons_self _ _) rfl⟩
